import Mathlib

/-!
Shallow embedding of the WordWebs backend (a daily word-association puzzle
game): the session-progress protocol, player-stat updates, puzzle validation,
leaderboard ranking and the duplicate-group check, translated from
`lambda_functions/shared/dynamodb_client.py`,
`lambda_functions/shared/puzzle_generator.py` and
`lambda_functions/api_handler/lambda_function.py`.

Modelling conventions:
- DynamoDB items become Lean structures; the fields no claim touches
  (`created_at`, `updated_at` timestamps, Discord message back-references)
  are omitted, and `session_id` generation (uuid4) is dropped since sessions
  are passed by value.
- Python `None`-able values become `Option`; Python truthiness of strings and
  integers is modelled explicitly (`pyTruthyStr`, `pyTruthyInt`).
- A Python function that can raise an uncaught exception on some input is
  modelled with `Option` (`none` = exception); functions whose internal
  `try/except` swallows all errors are modelled as total.
- Python `str.upper`, `str.isupper`, `str.islower` are modelled with the
  core ASCII `Char.toUpper`/`Char.isUpper`/`Char.isLower` (all puzzle data
  in this repository is ASCII).
- A stable sort by a total preorder key is uniquely determined, so Python's
  `list.sort(key=...)` is modelled by `List.insertionSort` with the
  corresponding key relation.
-/

namespace WordWebs

/-- One puzzle group, as in the `groups` JSON stored by the generator:
4 words, a category label, and a difficulty. -/
structure Group where
  words : List String
  category : String
  difficulty : Int
  deriving DecidableEq, Repr

/-- The `game_status` attribute of a session item.  The store only ever
writes one of these three strings (dynamodb_client.py lines 295-297,
312, 366). -/
inductive GameStatus where
  | in_progress
  | completed
  | failed
  deriving DecidableEq, Repr

/-- A game-session item of the `wordwebs-game-sessions` table, restricted to
the attributes the verified operations read or write. -/
structure Session where
  discord_id : String
  display_name : String
  puzzle_date : String
  puzzle_id : String
  guesses : List (List String)
  attempts_remaining : Int
  solved_groups : List Group
  selected_words : List String
  game_status : GameStatus
  completed : Bool
  completion_time : Option Int
  deriving DecidableEq, Repr

/-- A player item of the `wordwebs-players` table, restricted to the
attributes the verified operations read or write. -/
structure Player where
  discord_id : String
  display_name : String
  total_games : Nat
  games_won : Nat
  best_time : Option Int
  deriving DecidableEq, Repr

/-- Python `str.upper()` on the ASCII alphabet (all puzzle data is ASCII). -/
def pyUpper (s : String) : String :=
  ⟨s.data.map Char.toUpper⟩

/-- Python `str.strip()`: drop leading and trailing whitespace. -/
def pyStrip (s : String) : String :=
  ⟨((s.data.dropWhile Char.isWhitespace).reverse.dropWhile
      Char.isWhitespace).reverse⟩

/-- Lexicographic code-point comparison of character lists: the order
Python `sorted` uses on strings. -/
def charListLe : List Char → List Char → Bool
  | [], _ => true
  | _ :: _, [] => false
  | a :: as, b :: bs =>
      if a < b then true
      else if b < a then false
      else charListLe as bs

/-- The string order Python `sorted` uses, as a relation for
`List.insertionSort`. -/
def strLe (a b : String) : Prop :=
  charListLe a.data b.data = true

instance : DecidableRel strLe :=
  fun _ _ => inferInstanceAs (Decidable (_ = _))

/-- Python truthiness of an optional string (`if body.get('channel_id'):`):
present and non-empty. -/
def pyTruthyStr (s : Option String) : Bool :=
  !(s.getD "").data.isEmpty

/-- Python truthiness of an optional integer (`if completion_time:`):
present and non-zero. -/
def pyTruthyInt (t : Option Int) : Bool :=
  t.getD 0 != 0

/-- The arguments of one store-level progress save: the payload that
`DynamoDBClient.save_game_progress` writes into the session item. -/
structure SaveArgs where
  guesses : List (List String)
  attempts_remaining : Int
  solved_groups : List Group
  selected_words : List String
  deriving DecidableEq, Repr

namespace DB

/-- The `game_status` expression of the update branch of
`DynamoDBClient.save_game_progress` (dynamodb_client.py lines 295-297):
`'in_progress' if attempts_remaining > 0 and len(solved_groups) < 4 else
('completed' if len(solved_groups) == 4 else 'failed')`. -/
def progressStatus (attempts_remaining : Int) (solved_count : Nat) : GameStatus :=
  if attempts_remaining > 0 ∧ solved_count < 4 then .in_progress
  else if solved_count = 4 then .completed
  else .failed

/-- `DynamoDBClient.save_game_progress` (dynamodb_client.py lines 269-324).
When a session for (player, date) exists it updates `guesses`,
`attempts_remaining`, `solved_groups`, `selected_words` and `game_status`
(the `completed` flag and `completion_time` are untouched); otherwise it
creates a fresh session with `game_status = 'in_progress'` and
`completed = False`. -/
def save_game_progress (discord_id display_name puzzle_date puzzle_id : String)
    (existing : Option Session) (a : SaveArgs) : Session :=
  match existing with
  | some s =>
      { s with
        guesses := a.guesses
        attempts_remaining := a.attempts_remaining
        solved_groups := a.solved_groups
        selected_words := a.selected_words
        game_status := progressStatus a.attempts_remaining a.solved_groups.length }
  | none =>
      { discord_id := discord_id
        display_name := display_name
        puzzle_date := puzzle_date
        puzzle_id := puzzle_id
        guesses := a.guesses
        attempts_remaining := a.attempts_remaining
        solved_groups := a.solved_groups
        selected_words := a.selected_words
        game_status := .in_progress
        completed := false
        completion_time := none }

/-- `DynamoDBClient.complete_game_session` (dynamodb_client.py lines
361-383): sets `game_status` and the `completed` flag; `completion_time` is
written only when one is supplied. -/
def complete_game_session (s : Session) (completed : Bool)
    (completion_time : Option Int) : Session :=
  { s with
    game_status := if completed then .completed else .failed
    completed := completed
    completion_time :=
      match completion_time with
      | some t => some t
      | none => s.completion_time }

/-- `DynamoDBClient.has_user_completed_daily_puzzle` (dynamodb_client.py
lines 385-392): truthy exactly when a session exists and its `completed`
flag is set. -/
def has_user_completed_daily_puzzle (existing : Option Session) : Bool :=
  match existing with
  | some s => s.completed
  | none => false

/-- `DynamoDBClient._update_player_stats` (dynamodb_client.py lines
394-424): `ADD total_games 1, games_won 1`, and `best_time` is overwritten
exactly when it was unset or the new completion time is strictly smaller. -/
def update_player_stats (p : Player) (completion_time : Int) : Player :=
  { p with
    total_games := p.total_games + 1
    games_won := p.games_won + 1
    best_time :=
      match p.best_time with
      | none => some completion_time
      | some b => if completion_time < b then some completion_time else p.best_time }

/-- `DynamoDBClient._hash_group` (dynamodb_client.py lines 426-429) up to
the final md5: the digest input `''.join(sorted(word.upper() for word in
words))`.  md5 is a function of this string, so equality of this key gives
equality of the stored hex digest, which is all the duplicate check uses. -/
def hash_group (words : List String) : String :=
  String.join ((words.map pyUpper).insertionSort strLe)

/-- `DynamoDBClient.check_duplicate_groups` (dynamodb_client.py lines
51-66): true when some group's hash key is present in the historical
archive (modelled as the list of archived hash keys). -/
def check_duplicate_groups (groups : List Group) (historical : List String) : Bool :=
  groups.any (fun g => historical.contains (hash_group g.words))

end DB

/-- One entry of the combined daily leaderboard built by
`DynamoDBClient.get_all_daily_games` (the `game_data` dict of
dynamodb_client.py lines 180-190, plus the `rank` added later). -/
structure GameEntry where
  display_name : String
  discord_id : String
  completed : Bool
  solved_groups_count : Nat
  attempts_used : Int
  completion_time : Option Int
  rank : Nat
  deriving DecidableEq, Repr

/-- The `game_data` record extracted from one session item
(dynamodb_client.py lines 180-190): `completion_time` is copied only when
truthy; `rank` is filled in later (0 here). -/
def toGameEntry (s : Session) : GameEntry :=
  { display_name := s.display_name
    discord_id := s.discord_id
    completed := s.completed
    solved_groups_count := s.solved_groups.length
    attempts_used := 4 - s.attempts_remaining
    completion_time := if pyTruthyInt s.completion_time then s.completion_time else none
    rank := 0 }

/-- Sort key relation for completed games:
`completed_games.sort(key=lambda x: x.get('completion_time', 0))`. -/
def completedLE (x y : GameEntry) : Prop :=
  x.completion_time.getD 0 ≤ y.completion_time.getD 0

instance : DecidableRel completedLE :=
  fun _ _ => inferInstanceAs (Decidable (_ ≤ _))

instance : IsTotal GameEntry completedLE :=
  ⟨fun _ _ => le_total _ _⟩

instance : IsTrans GameEntry completedLE :=
  ⟨fun _ _ _ => le_trans⟩

/-- Sort key relation for incomplete games:
`incomplete_games.sort(key=lambda x: (-x['solved_groups_count'],
x['attempts_used']))`, i.e. the lexicographic order of that Python pair:
more solved groups first, then fewer attempts used. -/
def incompleteLE (x y : GameEntry) : Prop :=
  y.solved_groups_count < x.solved_groups_count ∨
    (x.solved_groups_count = y.solved_groups_count ∧ x.attempts_used ≤ y.attempts_used)

instance : DecidableRel incompleteLE :=
  fun _ _ => inferInstanceAs (Decidable (_ ∨ _))

instance : IsTotal GameEntry incompleteLE :=
  ⟨fun x y => by
    rcases Nat.lt_trichotomy x.solved_groups_count y.solved_groups_count with h | h | h
    · exact Or.inr (Or.inl h)
    · rcases le_total x.attempts_used y.attempts_used with h' | h'
      · exact Or.inl (Or.inr ⟨h, h'⟩)
      · exact Or.inr (Or.inr ⟨h.symm, h'⟩)
    · exact Or.inl (Or.inl h)⟩

instance : IsTrans GameEntry incompleteLE :=
  ⟨fun x y z hxy hyz => by
    rcases hxy with h1 | ⟨e1, a1⟩ <;> rcases hyz with h2 | ⟨e2, a2⟩
    · exact Or.inl (h2.trans h1)
    · exact Or.inl (e2 ▸ h1)
    · exact Or.inl (e1 ▸ h2)
    · exact Or.inr ⟨e1.trans e2, a1.trans a2⟩⟩

namespace DB

/-- `DynamoDBClient.get_all_daily_games` (dynamodb_client.py lines
154-217): partition the date's sessions into completed and incomplete,
stable-sort completed by ascending completion time and incomplete by
(more solved groups, fewer attempts used), concatenate completed first,
and assign ranks 1, 2, ... in that order. -/
def get_all_daily_games (sessions : List Session) : List GameEntry :=
  let gamesData := sessions.map toGameEntry
  let completed_games := gamesData.filter (fun g => g.completed)
  let incomplete_games := gamesData.filter (fun g => !g.completed)
  ((completed_games.insertionSort completedLE ++
      incomplete_games.insertionSort incompleteLE).enum).map
    (fun p => { p.2 with rank := p.1 + 1 })

/-- The trajectory of session states produced by a sequence of store-level
progress saves against one existing session (each save takes the update
branch of `save_game_progress`, as in the source when the session for the
(player, date) key already exists). -/
def runSaves (s : Session) : List SaveArgs → List Session
  | [] => []
  | a :: rest =>
      let s' := save_game_progress s.discord_id s.display_name s.puzzle_date
        s.puzzle_id (some s) a
      s' :: runSaves s' rest

end DB

namespace Api

/-- The request body of a progress-save call, after the handler's
required-field validation has passed (api_handler/lambda_function.py
lines 414-419 require `puzzle_id`, `guess`, `attempts_remaining`,
`solved_groups`; the rest are optional). -/
structure SaveBody where
  puzzle_id : String
  guess : List String
  attempts_remaining : Int
  solved_groups : List Group
  selected_words : List String
  completion_time : Option Int
  channel_id : Option String
  image_data : Option String
  guild_id : Option String
  deriving DecidableEq, Repr

/-- The observable outcome of one handler-level progress save: the HTTP
status code, the resulting session and player records, and the two
swallowed collaborator results. -/
structure SaveOutcome where
  statusCode : Nat
  session : Option Session
  player : Player
  discord_message_sent : Bool
  channel_registered : Bool
  deriving DecidableEq, Repr

/-- The `save_game_progress` route handler (api_handler/lambda_function.py
lines 399-625), after authentication and field validation succeed.

`player` is the record returned by `get_or_create_player`; `existing` is
the session found for (player, current date); `discordSend` and
`channelRegister` are the results of the two external collaborator calls
(the chat-message send of lines 511-536 and the channel registration of
lines 538-571), `Except.error` meaning the call raised — both are caught
and swallowed by the handler.  Control flow:
1. reject with 400 when `has_user_completed_daily_puzzle` is truthy;
2. append the new guess to the existing session's guesses and run the
   store-level save;
3. attempt the chat message when the guess is significant and a truthy
   channel id and image are supplied, swallowing failure;
4. attempt channel registration when a truthy channel id and guild id are
   supplied, swallowing failure;
5. when all 4 groups are solved and a truthy completion time is supplied,
   mark the session completed and run `update_player_stats`; otherwise when
   `attempts_remaining` is 0, mark the session failed and increment only
   the player's `total_games`;
6. return 200. -/
def save_game_progress (current_date : String) (player : Player)
    (existing : Option Session) (body : SaveBody)
    (discordSend : Except Unit Bool) (channelRegister : Except Unit Bool) :
    SaveOutcome :=
  if DB.has_user_completed_daily_puzzle existing then
    { statusCode := 400
      session := existing
      player := player
      discord_message_sent := false
      channel_registered := false }
  else
    let current_guesses :=
      (match existing with | some s => s.guesses | none => []) ++ [body.guess]
    let session1 := DB.save_game_progress player.discord_id player.display_name
      current_date body.puzzle_id existing
      { guesses := current_guesses
        attempts_remaining := body.attempts_remaining
        solved_groups := body.solved_groups
        selected_words := body.selected_words }
    let existing_solved_count :=
      match existing with | some s => s.solved_groups.length | none => 0
    let existing_attempts : Int :=
      match existing with | some s => s.attempts_remaining | none => 4
    let new_solved_count := body.solved_groups.length
    let new_attempts := body.attempts_remaining
    let should_send_discord_message :=
      new_solved_count == 4 || new_attempts == 0 ||
        decide (existing_solved_count < new_solved_count) ||
        (new_solved_count == existing_solved_count &&
          decide (new_attempts < existing_attempts))
    let discord_message_sent :=
      if should_send_discord_message && pyTruthyStr body.channel_id &&
          pyTruthyStr body.image_data then
        match discordSend with
        | .ok sent => sent
        | .error _ => false
      else false
    let channel_registered :=
      if pyTruthyStr body.channel_id && pyTruthyStr body.guild_id then
        match channelRegister with
        | .ok registered => registered
        | .error _ => false
      else false
    let result :=
      if body.solved_groups.length = 4 then
        if pyTruthyInt body.completion_time then
          let t := body.completion_time.getD 0
          (DB.complete_game_session session1 true (some t),
            DB.update_player_stats player t)
        else (session1, player)
      else if body.attempts_remaining = 0 then
        (DB.complete_game_session session1 false none,
          { player with total_games := player.total_games + 1 })
      else (session1, player)
    { statusCode := 200
      session := some result.1
      player := result.2
      discord_message_sent := discord_message_sent
      channel_registered := channel_registered }

end Api

namespace Generator

/-- The per-word checks of `PuzzleGenerator._validate_puzzle`
(puzzle_generator.py lines 147-153): strip the word; reject (False) a word
containing a space or a hyphen; reject a word whose first character is
uppercase while a later character is lowercase.  On a word that trims to
the empty string the Python `word_clean[0]` raises IndexError, modelled as
`none`. -/
def wordCheck (word : String) : Option Bool :=
  let word_clean := pyStrip word
  if word_clean.data.contains ' ' || word_clean.data.contains '-' then some false
  else
    match word_clean.data with
    | [] => none
    | c :: rest => if c.isUpper && rest.any Char.isLower then some false
        else some true

/-- Run `wordCheck` over a group's words in order, propagating the first
False or exception, as the Python for-loop does. -/
def wordsCheck : List String → Option Bool
  | [] => some true
  | w :: ws =>
      match wordCheck w with
      | some true => wordsCheck ws
      | r => r

/-- The per-group checks of `_validate_puzzle` (puzzle_generator.py lines
139-153): exactly 4 words, then the per-word checks.  The dictionary
key-presence checks of line 140 are vacuous in this typed embedding. -/
def groupCheck (g : Group) : Option Bool :=
  if g.words.length ≠ 4 then some false else wordsCheck g.words

/-- Run `groupCheck` over the groups in order, propagating the first False
or exception. -/
def groupsCheck : List Group → Option Bool
  | [] => some true
  | g :: gs =>
      match groupCheck g with
      | some true => groupsCheck gs
      | r => r

/-- `PuzzleGenerator._validate_puzzle` (puzzle_generator.py lines 126-175):
4 groups; per-group and per-word checks; 16 words total; 16 distinct words
after `word.upper().strip()`; difficulties sorting to `[1, 2, 3, 4]`; 4
distinct stripped categories.  `none` models an uncaught IndexError
(possible only for a word that trims to the empty string). -/
def validate_puzzle (groups : List Group) : Option Bool :=
  if groups.length ≠ 4 then some false
  else
    match groupsCheck groups with
    | some true =>
        let all_words :=
          (groups.map (fun g => g.words.map (fun w => pyStrip (pyUpper w)))).flatten
        let difficulties := groups.map (fun g => g.difficulty)
        let categories := groups.map (fun g => pyStrip g.category)
        if all_words.length ≠ 16 then some false
        else if all_words.dedup.length ≠ 16 then some false
        else if difficulties.insertionSort (· ≤ ·) ≠ ([1, 2, 3, 4] : List Int) then
          some false
        else if categories.dedup.length ≠ 4 then some false
        else some true
    | r => r

end Generator

/-- Erase the rank assigned by `get_all_daily_games`, for comparing entry
content with the input. -/
def stripRank (g : GameEntry) : GameEntry :=
  { g with rank := 0 }

/-- The pairwise order the combined leaderboard satisfies: a completed
entry is never ranked after an incomplete one; two completed entries are in
ascending completion-time order; two incomplete entries are ordered by
more solved groups first, then fewer attempts used. -/
def rankedBefore (x y : GameEntry) : Prop :=
  (x.completed = true ∧ y.completed = false) ∨
  (x.completed = true ∧ y.completed = true ∧
    x.completion_time.getD 0 ≤ y.completion_time.getD 0) ∨
  (x.completed = false ∧ y.completed = false ∧
    (y.solved_groups_count < x.solved_groups_count ∨
      (x.solved_groups_count = y.solved_groups_count ∧
        x.attempts_used ≤ y.attempts_used)))

/-- The word shape `_validate_puzzle` accepts: no space and no hyphen in
the stripped word, the stripped word nonempty, and not capitalized-style
(an uppercase first character followed by some lowercase character). -/
def WordOk (w : String) : Prop :=
  (' ' ∉ (pyStrip w).data) ∧ ('-' ∉ (pyStrip w).data) ∧
    (pyStrip w).data ≠ [] ∧
    ¬((pyStrip w).data.headI.isUpper = true ∧
      ((pyStrip w).data.tail.any Char.isLower) = true)

/-- The full word-shape requirement and puzzle invariants that
`_validate_puzzle` actually enforces, stated spec-style. -/
def AmendedValid (groups : List Group) : Prop :=
  groups.length = 4 ∧
  (∀ g ∈ groups, g.words.length = 4) ∧
  (∀ g ∈ groups, ∀ w ∈ g.words, WordOk w) ∧
  ((groups.map (fun g => g.words.map (fun w => pyStrip (pyUpper w)))).flatten).Nodup ∧
  (groups.map (fun g => g.difficulty)).Perm ([1, 2, 3, 4] : List Int) ∧
  (groups.map (fun g => pyStrip g.category)).Nodup

/-- The validity predicate exactly as claimed for `validate`: 4 groups, 4
single-token words each with no internal whitespace, a case-insensitive
union of cardinality 16, difficulties a permutation of 1-4, and pairwise
distinct category labels. -/
def claimValid (groups : List Group) : Bool :=
  groups.length == 4 &&
  groups.all (fun g => g.words.length == 4 &&
    g.words.all (fun w => !(pyStrip w).data.any Char.isWhitespace)) &&
  ((groups.map (fun g => g.words.map pyUpper)).flatten.dedup.length == 16) &&
  decide ((groups.map (fun g => g.difficulty)).Perm ([1, 2, 3, 4] : List Int)) &&
  decide ((groups.map (fun g => g.category)).Nodup)

/-! Concrete sample data, used by witnesses and counterexamples. -/

/-- A sample group. -/
def sampleGroup1 : Group := ⟨["ALFA", "BRAVO", "DELTA", "GOLF"], "NATO", 1⟩

/-- A sample group. -/
def sampleGroup2 : Group := ⟨["RUBY", "JADE", "OPAL", "ONYX"], "GEMS", 2⟩

/-- A sample group. -/
def sampleGroup3 : Group := ⟨["MARS", "PLUTO", "VENUS", "SATURN"], "PLANETS", 3⟩

/-- A sample group. -/
def sampleGroup4 : Group := ⟨["TANGO", "SALSA", "WALTZ", "POLKA"], "DANCES", 4⟩

/-- A sample player with a recorded best time. -/
def samplePlayer : Player := ⟨"111", "alice", 3, 2, some 150⟩

/-- A sample in-progress session for `samplePlayer`. -/
def sampleSession : Session :=
  { discord_id := "111"
    display_name := "alice"
    puzzle_date := "2026-10-12"
    puzzle_id := "p1"
    guesses := [["ALFA", "BRAVO", "DELTA", "GOLF"]]
    attempts_remaining := 3
    solved_groups := [sampleGroup1]
    selected_words := []
    game_status := .in_progress
    completed := false
    completion_time := none }

/-- A sample already-failed session for `samplePlayer`: terminal
`game_status`, but `completed = False`, as `complete_game_session`
leaves it for a failed game. -/
def sampleFailedSession : Session :=
  { sampleSession with
    attempts_remaining := 0
    guesses := [["ALFA", "BRAVO", "DELTA", "ONYX"]]
    solved_groups := []
    game_status := .failed }

/-- A sample completed session for `samplePlayer`. -/
def sampleCompletedSession : Session :=
  { sampleSession with
    attempts_remaining := 1
    solved_groups := [sampleGroup1, sampleGroup2, sampleGroup3, sampleGroup4]
    game_status := .completed
    completed := true
    completion_time := some 120 }

/-- A sample progress-save request body. -/
def mkBody (attempts : Int) (solved : List Group) (time : Option Int) :
    Api.SaveBody :=
  { puzzle_id := "p1"
    guess := ["RUBY", "JADE", "OPAL", "ONYX"]
    attempts_remaining := attempts
    solved_groups := solved
    selected_words := []
    completion_time := time
    channel_id := none
    image_data := none
    guild_id := none }

/-! Helper lemmas. -/

/-- Cons-level characterization of `charListLe`. -/
theorem charListLe_cons {a b : Char} {as bs : List Char} :
    charListLe (a :: as) (b :: bs) = true ↔
      a < b ∨ (a = b ∧ charListLe as bs = true) := by
  have hdef : charListLe (a :: as) (b :: bs) =
      if a < b then (true : Bool) else if b < a then false else charListLe as bs :=
    rfl
  rw [hdef]
  rcases lt_trichotomy a b with h | h | h
  · simp [h]
  · simp [h, lt_irrefl]
  · simp [h, not_lt_of_lt h, ne_of_gt h]

/-- `charListLe` is total. -/
theorem charListLe_total : ∀ as bs : List Char,
    charListLe as bs = true ∨ charListLe bs as = true
  | [], _ => Or.inl rfl
  | _ :: _, [] => Or.inr rfl
  | a :: as, b :: bs => by
      rcases lt_trichotomy a b with h | h | h
      · exact Or.inl (charListLe_cons.mpr (Or.inl h))
      · rcases charListLe_total as bs with ih | ih
        · exact Or.inl (charListLe_cons.mpr (Or.inr ⟨h, ih⟩))
        · exact Or.inr (charListLe_cons.mpr (Or.inr ⟨h.symm, ih⟩))
      · exact Or.inr (charListLe_cons.mpr (Or.inl h))

/-- `charListLe` is antisymmetric. -/
theorem charListLe_antisymm : ∀ as bs : List Char,
    charListLe as bs = true → charListLe bs as = true → as = bs
  | [], [], _, _ => rfl
  | [], _ :: _, _, h => by simp [charListLe] at h
  | _ :: _, [], h, _ => by simp [charListLe] at h
  | a :: as, b :: bs, h₁, h₂ => by
      rcases charListLe_cons.mp h₁ with h | ⟨rfl, t₁⟩
      · rcases charListLe_cons.mp h₂ with h' | ⟨e, _⟩
        · exact absurd h' (not_lt_of_lt h)
        · exact absurd (e ▸ h) (lt_irrefl b)
      · rcases charListLe_cons.mp h₂ with h' | ⟨_, t₂⟩
        · exact absurd h' (lt_irrefl a)
        · rw [charListLe_antisymm as bs t₁ t₂]

/-- `charListLe` is transitive. -/
theorem charListLe_trans : ∀ as bs cs : List Char,
    charListLe as bs = true → charListLe bs cs = true → charListLe as cs = true
  | [], _, _, _, _ => rfl
  | _ :: _, [], _, h, _ => by simp [charListLe] at h
  | _ :: _, _ :: _, [], _, h => by simp [charListLe] at h
  | a :: as, b :: bs, c :: cs, h₁, h₂ => by
      rcases charListLe_cons.mp h₁ with h | ⟨rfl, t₁⟩
      · rcases charListLe_cons.mp h₂ with h' | ⟨rfl, t₂⟩
        · exact charListLe_cons.mpr (Or.inl (h.trans h'))
        · exact charListLe_cons.mpr (Or.inl h)
      · rcases charListLe_cons.mp h₂ with h' | ⟨rfl, t₂⟩
        · exact charListLe_cons.mpr (Or.inl h')
        · exact charListLe_cons.mpr (Or.inr ⟨rfl, charListLe_trans as bs cs t₁ t₂⟩)

theorem wordCheckList_eq_some_true (d : List Char) :
    (if d.contains ' ' || d.contains '-' then some false
     else
       match d with
       | [] => none
       | c :: rest =>
           if c.isUpper && rest.any Char.isLower then some false
           else some true) = some true ↔
      (' ' ∉ d ∧ '-' ∉ d ∧ d ≠ [] ∧
        ¬(d.headI.isUpper = true ∧ d.tail.any Char.isLower = true)) := by
  rcases d with _ | ⟨c, rest⟩
  · simp
  · split_ifs with h
    · rcases Bool.or_eq_true_iff.mp h with hm | hm
      · simp [List.elem_iff.mp hm]
      · simp [List.elem_iff.mp hm]
    · have hsp : ' ' ∉ c :: rest := by
        intro hm
        exact h (Bool.or_eq_true_iff.mpr (Or.inl (List.elem_iff.mpr hm)))
      have hhy : '-' ∉ c :: rest := by
        intro hm
        exact h (Bool.or_eq_true_iff.mpr (Or.inr (List.elem_iff.mpr hm)))
      show (if (c.isUpper && rest.any Char.isLower) = true then some false
          else some true) = some true ↔ _
      by_cases h3 : (c.isUpper && rest.any Char.isLower) = true
      · rw [if_pos h3]
        rw [Bool.and_eq_true] at h3
        simp [hsp, hhy, h3.1, h3.2]
      · rw [if_neg h3]
        constructor
        · intro _
          refine ⟨hsp, hhy, by simp, ?_⟩
          intro hcon
          exact h3 (by rw [Bool.and_eq_true]; exact ⟨hcon.1, hcon.2⟩)
        · intro _
          rfl

theorem wordCheck_eq_some_true {w : String} :
    Generator.wordCheck w = some true ↔ WordOk w :=
  wordCheckList_eq_some_true (pyStrip w).data


theorem wordsCheck_eq_some_true {ws : List String} :
    Generator.wordsCheck ws = some true ↔ ∀ w ∈ ws, WordOk w := by
  induction ws with
  | nil => simp [Generator.wordsCheck]
  | cons w rest ih =>
      unfold Generator.wordsCheck
      rcases hw : Generator.wordCheck w with _ | b
      · simp only [hw]
        constructor
        · intro hcon; cases hcon
        · intro hall
          exact absurd (wordCheck_eq_some_true.mpr (hall w (by simp))) (by simp [hw])
      · rcases b with _ | _
        · simp only [hw]
          constructor
          · intro hcon; cases hcon
          · intro hall
            exact absurd (wordCheck_eq_some_true.mpr (hall w (by simp)))
              (by simp [hw])
        · simp only [hw]
          rw [ih]
          constructor
          · intro hall w₁ hw₁
            rcases List.mem_cons.mp hw₁ with rfl | hmem
            · exact wordCheck_eq_some_true.mp hw
            · exact hall w₁ hmem
          · intro hall w₁ hw₁
            exact hall w₁ (List.mem_cons_of_mem _ hw₁)

theorem groupCheck_eq_some_true {g : Group} :
    Generator.groupCheck g = some true ↔
      g.words.length = 4 ∧ ∀ w ∈ g.words, WordOk w := by
  unfold Generator.groupCheck
  by_cases hlen : g.words.length = 4
  · rw [if_neg (by simp [hlen])]
    rw [wordsCheck_eq_some_true]
    simp [hlen]
  · rw [if_pos hlen]
    simp [hlen]

theorem groupsCheck_eq_some_true {gs : List Group} :
    Generator.groupsCheck gs = some true ↔
      ∀ g ∈ gs, g.words.length = 4 ∧ ∀ w ∈ g.words, WordOk w := by
  induction gs with
  | nil => simp [Generator.groupsCheck]
  | cons g rest ih =>
      unfold Generator.groupsCheck
      rcases hg : Generator.groupCheck g with _ | b
      · simp only [hg]
        constructor
        · intro hcon; cases hcon
        · intro hall
          exact absurd (groupCheck_eq_some_true.mpr (hall g (by simp)))
            (by simp [hg])
      · rcases b with _ | _
        · simp only [hg]
          constructor
          · intro hcon; cases hcon
          · intro hall
            exact absurd (groupCheck_eq_some_true.mpr (hall g (by simp)))
              (by simp [hg])
        · simp only [hg]
          rw [ih]
          constructor
          · intro hall g₁ hg₁
            rcases List.mem_cons.mp hg₁ with rfl | hmem
            · exact groupCheck_eq_some_true.mp hg
            · exact hall g₁ hmem
          · intro hall g₁ hg₁
            exact hall g₁ (List.mem_cons_of_mem _ hg₁)

theorem dedup_length_iff {α : Type} [DecidableEq α] {l : List α} {n : Nat}
    (h : l.length = n) : l.dedup.length = n ↔ l.Nodup := by
  constructor
  · intro hd
    have hsub : List.Sublist l.dedup l := List.dedup_sublist l
    have heq : l.dedup = l := hsub.eq_of_length (by rw [hd, h])
    rw [← heq]
    exact List.nodup_dedup l
  · intro hn
    rw [List.dedup_eq_self.mpr hn, h]

theorem insertionSortInt_eq_iff_perm {l : List Int} :
    l.insertionSort (· ≤ ·) = [1, 2, 3, 4] ↔ l.Perm [1, 2, 3, 4] := by
  constructor
  · intro h
    rw [← h]
    exact (List.perm_insertionSort _ l).symm
  · intro h
    refine List.eq_of_perm_of_sorted ?_ (List.sorted_insertionSort _ l) ?_
    · exact (List.perm_insertionSort _ l).trans h
    · refine List.sorted_cons.mpr ⟨?_, List.sorted_cons.mpr ⟨?_,
        List.sorted_cons.mpr ⟨?_, List.sorted_singleton _⟩⟩⟩ <;> intro b hb <;>
        simp at hb <;> omega

theorem flatten_words_length {groups : List Group} (f : String → String)
    (hlen : groups.length = 4) (h4 : ∀ g ∈ groups, g.words.length = 4) :
    ((groups.map (fun g => g.words.map f)).flatten).length = 16 := by
  rw [List.length_flatten, List.map_map]
  have : (groups.map (List.length ∘ fun g => g.words.map f)) =
      groups.map (fun _ => 4) := by
    refine List.map_congr_left ?_
    intro g hg
    simp [h4 g hg]
  rw [this, List.map_const', hlen]
  rfl

/-! The claims. -/

/-- C10: a progress-save for a (player, date) with no existing session
record creates the session with `game_status = 'in_progress'` and
`completed = False`, whatever `attempts_remaining` and `solved_groups` are
supplied; the terminal-status computation runs only on the update branch. -/
theorem C10_create_branch_always_in_progress
    (discord_id display_name puzzle_date puzzle_id : String) (a : SaveArgs) :
    (DB.save_game_progress discord_id display_name puzzle_date puzzle_id
        none a).game_status = GameStatus.in_progress ∧
      (DB.save_game_progress discord_id display_name puzzle_date puzzle_id
        none a).completed = false :=
  ⟨rfl, rfl⟩

/-- Counterexample to C2: a first-ever progress-save (no existing session)
submitting all 4 solved groups and `attempts_remaining = 0` but no truthy
completion time is accepted (HTTP 200), yet the created session's status is
`in_progress`, not `completed`: the create branch hard-codes
`game_status = 'in_progress'` and the handler's completion block requires a
truthy `completion_time`. -/
theorem C2_counterexample :
    (Api.save_game_progress "2026-10-12" samplePlayer none
        (mkBody 0 [sampleGroup1, sampleGroup2, sampleGroup3, sampleGroup4] none)
        (Except.ok false) (Except.ok false)).statusCode = 200 ∧
    (Api.save_game_progress "2026-10-12" samplePlayer none
        (mkBody 0 [sampleGroup1, sampleGroup2, sampleGroup3, sampleGroup4] none)
        (Except.ok false) (Except.ok false)).session.map
      (fun s => s.game_status) = some GameStatus.in_progress :=
  ⟨rfl, rfl⟩

/-- C2 amended: a progress-save whose submitted `solved_groups` reaches all
4 groups leaves the session with status `completed`, for every value of
`attempts_remaining` — in particular when it reaches 0 in the same
submission — provided the save updates an existing (non-terminal) session
(with or without a completion time) or is a first-ever save carrying a
truthy completion time.  (A first-ever save without one stores
`in_progress` — see the counterexample.) -/
theorem C2_completion_takes_precedence (current_date : String) (player : Player)
    (existing : Option Session) (body : Api.SaveBody)
    (discordSend channelRegister : Except Unit Bool)
    (hgate : DB.has_user_completed_daily_puzzle existing = false)
    (hsolved : body.solved_groups.length = 4)
    (hcase : existing.isSome = true ∨ pyTruthyInt body.completion_time = true) :
    ∃ s₁, (Api.save_game_progress current_date player existing body
        discordSend channelRegister).session = some s₁ ∧
      s₁.game_status = GameStatus.completed := by
  unfold Api.save_game_progress
  simp only [hgate, Bool.false_eq_true, if_false, hsolved, if_true]
  by_cases htime : pyTruthyInt body.completion_time = true
  · simp only [htime, if_true]
    exact ⟨_, rfl, rfl⟩
  · simp only [htime, if_false]
    rcases existing with _ | s
    · rcases hcase with h | h
      · exact absurd h (by simp)
      · exact absurd h htime
    · refine ⟨_, rfl, ?_⟩
      simp [DB.save_game_progress, DB.progressStatus, hsolved]

/-- Witness for C2 amended: a save against `sampleSession` submitting all 4
solved groups and `attempts_remaining = 0` with no completion time yields a
session with status `completed`. -/
theorem C2_witness :
    ∃ s₁, (Api.save_game_progress "2026-10-12" samplePlayer
        (some sampleSession)
        (mkBody 0 [sampleGroup1, sampleGroup2, sampleGroup3, sampleGroup4] none)
        (Except.ok false) (Except.ok false)).session = some s₁ ∧
      s₁.game_status = GameStatus.completed :=
  C2_completion_takes_precedence "2026-10-12" samplePlayer
    (some sampleSession)
    (mkBody 0 [sampleGroup1, sampleGroup2, sampleGroup3, sampleGroup4] none)
    (Except.ok false) (Except.ok false) rfl rfl (Or.inl rfl)

/-- C5: when a progress-save transitions the session to completed with a
(truthy) completion time t, the player's `total_games` and `games_won` are
each incremented by 1, and `best_time` becomes t exactly when it was unset
or t is strictly smaller than the current best; otherwise it is
unchanged. -/
theorem C5_completed_stats_update (current_date : String) (player : Player)
    (existing : Option Session) (body : Api.SaveBody)
    (discordSend channelRegister : Except Unit Bool) (t : Int)
    (hgate : DB.has_user_completed_daily_puzzle existing = false)
    (hsolved : body.solved_groups.length = 4)
    (htime : body.completion_time = some t) (ht : t ≠ 0) :
    (Api.save_game_progress current_date player existing body
        discordSend channelRegister).player.total_games =
      player.total_games + 1 ∧
    (Api.save_game_progress current_date player existing body
        discordSend channelRegister).player.games_won =
      player.games_won + 1 ∧
    (player.best_time = none →
      (Api.save_game_progress current_date player existing body
          discordSend channelRegister).player.best_time = some t) ∧
    (∀ b, player.best_time = some b → t < b →
      (Api.save_game_progress current_date player existing body
          discordSend channelRegister).player.best_time = some t) ∧
    (∀ b, player.best_time = some b → ¬ t < b →
      (Api.save_game_progress current_date player existing body
          discordSend channelRegister).player.best_time = player.best_time) := by
  have htruthy : pyTruthyInt (some t) = true := by
    simp [pyTruthyInt, ht]
  unfold Api.save_game_progress
  simp only [hgate, Bool.false_eq_true, if_false, hsolved, if_true, htime,
    htruthy, DB.update_player_stats]
  refine ⟨trivial, trivial, ?_, ?_, ?_⟩
  · intro hb; simp [hb]
  · intro b hb hlt; simp [hb, hlt]
  · intro b hb hge; simp [hb, hge]

/-- Witness for C5: `samplePlayer` (best time 150) completing in 90 seconds
gets `total_games` 4, `games_won` 3 and `best_time` 90. -/
theorem C5_witness :
    (Api.save_game_progress "2026-10-12" samplePlayer (some sampleSession)
        (mkBody 2 [sampleGroup1, sampleGroup2, sampleGroup3, sampleGroup4]
          (some 90))
        (Except.ok false) (Except.ok false)).player.best_time = some 90 := by
  have h := C5_completed_stats_update "2026-10-12" samplePlayer
    (some sampleSession)
    (mkBody 2 [sampleGroup1, sampleGroup2, sampleGroup3, sampleGroup4]
      (some 90))
    (Except.ok false) (Except.ok false) 90 rfl rfl rfl (by decide)
  exact h.2.2.2.1 150 rfl (by decide)

/-- C6: when a progress-save transitions the session to failed
(`attempts_remaining` 0 with fewer than 4 solved groups), the session is
marked failed and only the player's `total_games` is incremented;
`games_won` and `best_time` are unchanged. -/
theorem C6_failed_increments_only_total_games (current_date : String)
    (player : Player) (existing : Option Session) (body : Api.SaveBody)
    (discordSend channelRegister : Except Unit Bool)
    (hgate : DB.has_user_completed_daily_puzzle existing = false)
    (hsolved : body.solved_groups.length < 4)
    (hatt : body.attempts_remaining = 0) :
    (Api.save_game_progress current_date player existing body
        discordSend channelRegister).player.total_games =
      player.total_games + 1 ∧
    (Api.save_game_progress current_date player existing body
        discordSend channelRegister).player.games_won = player.games_won ∧
    (Api.save_game_progress current_date player existing body
        discordSend channelRegister).player.best_time = player.best_time ∧
    ∃ s₁, (Api.save_game_progress current_date player existing body
        discordSend channelRegister).session = some s₁ ∧
      s₁.game_status = GameStatus.failed ∧ s₁.completed = false := by
  have hne : body.solved_groups.length ≠ 4 := Nat.ne_of_lt hsolved
  unfold Api.save_game_progress
  simp only [hgate, Bool.false_eq_true, if_false, hne, hatt, if_true]
  refine ⟨trivial, trivial, trivial, _, rfl, ?_, ?_⟩ <;> rfl

/-- Witness for C6: failing with one solved group leaves `games_won` at 2
and `best_time` at 150 while `total_games` becomes 4. -/
theorem C6_witness :
    (Api.save_game_progress "2026-10-12" samplePlayer (some sampleSession)
        (mkBody 0 [sampleGroup1] none)
        (Except.ok false) (Except.ok false)).player.total_games = 4 ∧
    (Api.save_game_progress "2026-10-12" samplePlayer (some sampleSession)
        (mkBody 0 [sampleGroup1] none)
        (Except.ok false) (Except.ok false)).player.games_won = 2 := by
  have h := C6_failed_increments_only_total_games "2026-10-12" samplePlayer
    (some sampleSession) (mkBody 0 [sampleGroup1] none)
    (Except.ok false) (Except.ok false) rfl (by decide) rfl
  exact ⟨h.1, h.2.1⟩

/-- C9: a progress-save that passes the terminal gate returns HTTP 200 and
persists the same session and player state whatever the chat-message send
and channel-registration collaborators return — including when they raise:
their failures are swallowed, not propagated. -/
theorem C9_collaborator_failures_swallowed (current_date : String)
    (player : Player) (existing : Option Session) (body : Api.SaveBody)
    (d₁ d₂ r₁ r₂ : Except Unit Bool)
    (hgate : DB.has_user_completed_daily_puzzle existing = false) :
    (Api.save_game_progress current_date player existing body d₁ r₁).statusCode
        = 200 ∧
    (Api.save_game_progress current_date player existing body d₁ r₁).session =
      (Api.save_game_progress current_date player existing body d₂ r₂).session ∧
    (Api.save_game_progress current_date player existing body d₁ r₁).player =
      (Api.save_game_progress current_date player existing body d₂ r₂).player := by
  unfold Api.save_game_progress
  simp only [hgate, Bool.false_eq_true, if_false]
  exact ⟨trivial, trivial, trivial⟩

/-- Witness for C9: with both collaborators raising, a save against
`sampleSession` still returns 200, and stores the same session and player
as a run where both collaborators succeed. -/
theorem C9_witness :
    (Api.save_game_progress "2026-10-12" samplePlayer (some sampleSession)
        (mkBody 2 [sampleGroup1, sampleGroup2] none)
        (Except.error ()) (Except.error ())).statusCode = 200 :=
  (C9_collaborator_failures_swallowed "2026-10-12" samplePlayer
    (some sampleSession) (mkBody 2 [sampleGroup1, sampleGroup2] none)
    (Except.error ()) (Except.ok true) (Except.error ()) (Except.ok true)
    rfl).1

/-- Counterexample to C1: a session that is terminal with status `failed`
(the shape `complete_game_session` leaves: `game_status = 'failed'`,
`completed = False`) does NOT trip `has_user_completed_daily_puzzle`, so a
replayed progress-save for it is accepted (HTTP 200, not a domain error)
and re-increments the player's `total_games` from 3 to 4. -/
theorem C1_counterexample :
    DB.has_user_completed_daily_puzzle (some sampleFailedSession) = false ∧
    sampleFailedSession.game_status = GameStatus.failed ∧
    (Api.save_game_progress "2026-10-12" samplePlayer
        (some sampleFailedSession) (mkBody 0 [] none)
        (Except.ok false) (Except.ok false)).statusCode = 200 ∧
    (Api.save_game_progress "2026-10-12" samplePlayer
        (some sampleFailedSession) (mkBody 0 [] none)
        (Except.ok false) (Except.ok false)).player.total_games =
      samplePlayer.total_games + 1 := by
  refine ⟨rfl, rfl, rfl, rfl⟩

/-- C1 amended: a progress-save for a (player, date) whose session is
already `completed` is rejected with a domain error (HTTP 400) and leaves
the player's `total_games`, `games_won` and `best_time` and the session
unchanged.  (A `failed` session is not protected: its `completed` flag is
False, so the gate does not fire — see the counterexample.) -/
theorem C1_completed_replay_rejected (current_date : String) (player : Player)
    (s : Session) (body : Api.SaveBody)
    (discordSend channelRegister : Except Unit Bool)
    (hc : s.completed = true) :
    (Api.save_game_progress current_date player (some s) body
        discordSend channelRegister).statusCode = 400 ∧
    (Api.save_game_progress current_date player (some s) body
        discordSend channelRegister).player = player ∧
    (Api.save_game_progress current_date player (some s) body
        discordSend channelRegister).session = some s := by
  unfold Api.save_game_progress
  simp only [DB.has_user_completed_daily_puzzle, hc, if_true]
  exact ⟨trivial, trivial, trivial⟩

/-- Witness for C1 amended: replaying a save against
`sampleCompletedSession` is rejected with 400 and `samplePlayer` is
untouched. -/
theorem C1_witness :
    (Api.save_game_progress "2026-10-12" samplePlayer
        (some sampleCompletedSession) (mkBody 0 [] none)
        (Except.ok false) (Except.ok false)).statusCode = 400 ∧
    (Api.save_game_progress "2026-10-12" samplePlayer
        (some sampleCompletedSession) (mkBody 0 [] none)
        (Except.ok false) (Except.ok false)).player = samplePlayer :=
  ⟨(C1_completed_replay_rejected "2026-10-12" samplePlayer
      sampleCompletedSession (mkBody 0 [] none)
      (Except.ok false) (Except.ok false) rfl).1,
   (C1_completed_replay_rejected "2026-10-12" samplePlayer
      sampleCompletedSession (mkBody 0 [] none)
      (Except.ok false) (Except.ok false) rfl).2.1⟩

/-- Counterexample to C3: the store writes whatever the client submits, so
across two accepted progress-saves of one session's lifetime the stored
`attempts_remaining` can increase (1 then 4) and the stored solved-group
count can decrease (2 then 1); the session after the first save would not
be rejected by the terminal gate either. -/
theorem C3_counterexample :
    (DB.runSaves sampleSession
        [⟨[], 1, [sampleGroup1, sampleGroup2], []⟩,
         ⟨[], 4, [sampleGroup1], []⟩]).map
      (fun s => s.attempts_remaining) = [1, 4] ∧
    (DB.runSaves sampleSession
        [⟨[], 1, [sampleGroup1, sampleGroup2], []⟩,
         ⟨[], 4, [sampleGroup1], []⟩]).map
      (fun s => s.solved_groups.length) = [2, 1] ∧
    DB.has_user_completed_daily_puzzle
      (DB.runSaves sampleSession
        [⟨[], 1, [sampleGroup1, sampleGroup2], []⟩,
         ⟨[], 4, [sampleGroup1], []⟩]).head? = false := by
  refine ⟨rfl, rfl, rfl⟩

/-- C3 amended: the store writes the submitted `attempts_remaining` and
`solved_groups` verbatim — the stored sequences equal the submitted ones —
so within one session's lifetime `attempts_remaining` is non-increasing
and the solved-group count non-decreasing exactly when the client-submitted
sequences are; the server does not enforce monotonicity itself. -/
theorem C3_store_writes_submitted_values (s : Session) (l : List SaveArgs) :
    (DB.runSaves s l).map (fun x => x.attempts_remaining) =
      l.map (fun a => a.attempts_remaining) ∧
    (DB.runSaves s l).map (fun x => x.solved_groups.length) =
      l.map (fun a => a.solved_groups.length) ∧
    ((l.map (fun a => a.attempts_remaining)).Chain' (· ≥ ·) →
      ((DB.runSaves s l).map (fun x => x.attempts_remaining)).Chain' (· ≥ ·)) ∧
    ((l.map (fun a => a.solved_groups.length)).Chain' (· ≤ ·) →
      ((DB.runSaves s l).map (fun x => x.solved_groups.length)).Chain' (· ≤ ·)) := by
  have hatt : ∀ (s : Session) (l : List SaveArgs),
      (DB.runSaves s l).map (fun x => x.attempts_remaining) =
        l.map (fun a => a.attempts_remaining) := by
    intro s l
    induction l generalizing s with
    | nil => rfl
    | cons a rest ih => simp [DB.runSaves, DB.save_game_progress, ih]
  have hsol : ∀ (s : Session) (l : List SaveArgs),
      (DB.runSaves s l).map (fun x => x.solved_groups.length) =
        l.map (fun a => a.solved_groups.length) := by
    intro s l
    induction l generalizing s with
    | nil => rfl
    | cons a rest ih => simp [DB.runSaves, DB.save_game_progress, ih]
  refine ⟨hatt s l, hsol s l, ?_, ?_⟩
  · intro h; rw [hatt s l]; exact h
  · intro h; rw [hsol s l]; exact h

/-- Witness for C3 amended: a monotone submitted sequence (attempts 3 then
2, solved counts 1 then 2) yields monotone stored sequences. -/
theorem C3_witness :
    ((DB.runSaves sampleSession
        [⟨[], 3, [sampleGroup1], []⟩,
         ⟨[], 2, [sampleGroup1, sampleGroup2], []⟩]).map
      (fun x => x.attempts_remaining)).Chain' (· ≥ ·) ∧
    ((DB.runSaves sampleSession
        [⟨[], 3, [sampleGroup1], []⟩,
         ⟨[], 2, [sampleGroup1, sampleGroup2], []⟩]).map
      (fun x => x.solved_groups.length)).Chain' (· ≤ ·) :=
  ⟨(C3_store_writes_submitted_values sampleSession
      [⟨[], 3, [sampleGroup1], []⟩,
       ⟨[], 2, [sampleGroup1, sampleGroup2], []⟩]).2.2.1
     (by simp [List.chain'_cons]),
   (C3_store_writes_submitted_values sampleSession
      [⟨[], 3, [sampleGroup1], []⟩,
       ⟨[], 2, [sampleGroup1, sampleGroup2], []⟩]).2.2.2
     (by simp [List.chain'_cons])⟩

/-- C8: two groups whose 4-word lists agree up to word order and letter
case (their uppercased word multisets are permutations) get equal
duplicate-check hash keys, so a candidate group whose word set matches a
historically archived group is reported as a duplicate regardless of the
order or case of its words. -/
theorem C8_duplicate_hash_order_case_independent (ws₁ ws₂ : List String)
    (category : String) (difficulty : Int) (historical : List String)
    (hperm : (ws₁.map pyUpper).Perm (ws₂.map pyUpper)) :
    DB.hash_group ws₁ = DB.hash_group ws₂ ∧
    (DB.hash_group ws₂ ∈ historical →
      DB.check_duplicate_groups [⟨ws₁, category, difficulty⟩] historical = true) := by
  haveI : IsTotal String strLe := ⟨fun a b => charListLe_total a.data b.data⟩
  haveI : IsTrans String strLe := ⟨fun a b c => charListLe_trans a.data b.data c.data⟩
  haveI : IsAntisymm String strLe :=
    ⟨fun a b h₁ h₂ => by
      cases a; cases b
      exact congrArg String.mk (charListLe_antisymm _ _ h₁ h₂)⟩
  have hs₁ : List.Sorted strLe ((ws₁.map pyUpper).insertionSort strLe) :=
    List.sorted_insertionSort strLe _
  have hs₂ : List.Sorted strLe ((ws₂.map pyUpper).insertionSort strLe) :=
    List.sorted_insertionSort strLe _
  have hsortEq :
      (ws₁.map pyUpper).insertionSort strLe =
        (ws₂.map pyUpper).insertionSort strLe :=
    List.eq_of_perm_of_sorted
      (((List.perm_insertionSort _ _).trans hperm).trans
        (List.perm_insertionSort _ _).symm) hs₁ hs₂
  have hhash : DB.hash_group ws₁ = DB.hash_group ws₂ := by
    unfold DB.hash_group
    rw [hsortEq]
  refine ⟨hhash, fun hmem => ?_⟩
  simp [DB.check_duplicate_groups, hhash, hmem]

/-- Witness for C8: the candidate group words and an archived group's words
are the same set in different order and case; the hash keys agree and the
duplicate check fires. -/
theorem C8_witness :
    DB.hash_group ["alfa", "Bravo", "CHARLIE", "delta"] =
      DB.hash_group ["DELTA", "CHARLIE", "BRAVO", "ALFA"] ∧
    DB.check_duplicate_groups
      [⟨["alfa", "Bravo", "CHARLIE", "delta"], "NATO", 1⟩]
      [DB.hash_group ["DELTA", "CHARLIE", "BRAVO", "ALFA"]] = true :=
  ⟨(C8_duplicate_hash_order_case_independent
      ["alfa", "Bravo", "CHARLIE", "delta"]
      ["DELTA", "CHARLIE", "BRAVO", "ALFA"] "NATO" 1
      [DB.hash_group ["DELTA", "CHARLIE", "BRAVO", "ALFA"]]
      (by decide)).1,
   (C8_duplicate_hash_order_case_independent
      ["alfa", "Bravo", "CHARLIE", "delta"]
      ["DELTA", "CHARLIE", "BRAVO", "ALFA"] "NATO" 1
      [DB.hash_group ["DELTA", "CHARLIE", "BRAVO", "ALFA"]] (by decide)).2
     (List.mem_singleton.mpr rfl)⟩

/-- A general stability fact: filtering a stable insertion sort by a
predicate whose satisfying elements are pairwise related recovers the
filter of the input, in input order. -/
theorem filter_insertionSort_eq {α : Type} (r : α → α → Prop) [DecidableRel r]
    (p : α → Bool) (l : List α)
    (hp : ∀ a b, p a = true → p b = true → r a b) :
    (l.insertionSort r).filter p = l.filter p := by
  have hpair : (l.filter p).Pairwise r := by
    refine List.pairwise_of_forall_mem_list ?_
    intro a ha b hb
    exact hp a b (List.mem_filter.mp ha).2 (List.mem_filter.mp hb).2
  have h1 : List.Sublist (l.filter p) (l.insertionSort r) :=
    List.sublist_insertionSort hpair (List.filter_sublist l)
  have h2 : (l.filter p).filter p = l.filter p :=
    List.filter_eq_self.mpr (fun a ha => (List.mem_filter.mp ha).2)
  have h3 : List.Sublist (l.filter p) ((l.insertionSort r).filter p) :=
    h2 ▸ List.Sublist.filter p h1
  have h4 : List.Perm ((l.insertionSort r).filter p) (l.filter p) :=
    List.Perm.filter p (List.perm_insertionSort r l)
  exact (h3.eq_of_length h4.length_eq.symm).symm

/-- The ranked list, ranks erased, is exactly: completed entries
stable-sorted by completion time, then incomplete entries stable-sorted by
(solved groups descending, attempts used ascending). -/
theorem get_all_daily_games_stripRank (sessions : List Session) :
    (DB.get_all_daily_games sessions).map stripRank =
      ((sessions.map toGameEntry).filter (fun g => g.completed)).insertionSort
          completedLE ++
        ((sessions.map toGameEntry).filter (fun g => !g.completed)).insertionSort
          incompleteLE := by
  unfold DB.get_all_daily_games
  set cs := ((sessions.map toGameEntry).filter (fun g => g.completed)).insertionSort
    completedLE with hcs
  set is := ((sessions.map toGameEntry).filter (fun g => !g.completed)).insertionSort
    incompleteLE with his
  have hmem : ∀ g ∈ cs ++ is, stripRank g = g := by
    intro g hg
    have hg' : g ∈ sessions.map toGameEntry := by
      rcases List.mem_append.mp hg with h | h
      · exact (List.mem_filter.mp ((List.mem_insertionSort _).mp h)).1
      · exact (List.mem_filter.mp ((List.mem_insertionSort _).mp h)).1
    rcases List.mem_map.mp hg' with ⟨s, _, rfl⟩
    rfl
  calc ((cs ++ is).enum.map (fun p => { p.2 with rank := p.1 + 1 })).map stripRank
      = (cs ++ is).enum.map (fun p => stripRank p.2) := by
        rw [List.map_map]; rfl
    _ = ((cs ++ is).enum.map Prod.snd).map stripRank := by
        rw [List.map_map]; rfl
    _ = (cs ++ is).map stripRank := by rw [List.enum_map_snd]
    _ = (cs ++ is).map id := List.map_congr_left hmem
    _ = cs ++ is := List.map_id _

theorem leaderboard_ranks (sessions : List Session) :
    (DB.get_all_daily_games sessions).map (fun g => g.rank) =
      List.range' 1 (DB.get_all_daily_games sessions).length := by
  unfold DB.get_all_daily_games
  set L := ((sessions.map toGameEntry).filter (fun g => g.completed)).insertionSort
      completedLE ++
    ((sessions.map toGameEntry).filter (fun g => !g.completed)).insertionSort
      incompleteLE with hL
  have hlen : (L.enum.map (fun p => ({ p.2 with rank := p.1 + 1 } : GameEntry))).length
      = L.length := by
    rw [List.length_map, List.enum_length]
  rw [hlen]
  calc (L.enum.map (fun p => ({ p.2 with rank := p.1 + 1 } : GameEntry))).map
        (fun g => g.rank)
      = L.enum.map (fun p => p.1 + 1) := by rw [List.map_map]; rfl
    _ = (L.enum.map Prod.fst).map (fun x => x + 1) := by rw [List.map_map]; rfl
    _ = (List.range L.length).map (fun x => x + 1) := by rw [List.enum_map_fst]
    _ = (List.range L.length).map (fun x => 1 + x) :=
        List.map_congr_left (fun x _ => Nat.add_comm x 1)
    _ = List.range' 1 L.length := (List.range'_eq_map_range 1 L.length).symm

theorem leaderboard_pairwise (sessions : List Session) :
    (DB.get_all_daily_games sessions).Pairwise rankedBefore := by
  have hpairL :
      (((sessions.map toGameEntry).filter (fun g => g.completed)).insertionSort
          completedLE ++
        ((sessions.map toGameEntry).filter (fun g => !g.completed)).insertionSort
          incompleteLE).Pairwise rankedBefore := by
    rw [List.pairwise_append]
    refine ⟨?_, ?_, ?_⟩
    · have hsort : (((sessions.map toGameEntry).filter
          (fun g => g.completed)).insertionSort completedLE).Pairwise completedLE :=
        List.sorted_insertionSort completedLE _
      refine hsort.imp_of_mem ?_
      intro a b ha hb hr
      have hac : a.completed = true :=
        (List.mem_filter.mp ((List.mem_insertionSort _).mp ha)).2
      have hbc : b.completed = true :=
        (List.mem_filter.mp ((List.mem_insertionSort _).mp hb)).2
      exact Or.inr (Or.inl ⟨hac, hbc, hr⟩)
    · have hsort : (((sessions.map toGameEntry).filter
          (fun g => !g.completed)).insertionSort incompleteLE).Pairwise incompleteLE :=
        List.sorted_insertionSort incompleteLE _
      refine hsort.imp_of_mem ?_
      intro a b ha hb hr
      have hac : a.completed = false := by
        have := (List.mem_filter.mp ((List.mem_insertionSort _).mp ha)).2
        simpa using this
      have hbc : b.completed = false := by
        have := (List.mem_filter.mp ((List.mem_insertionSort _).mp hb)).2
        simpa using this
      exact Or.inr (Or.inr ⟨hac, hbc, hr⟩)
    · intro a ha b hb
      have hac : a.completed = true :=
        (List.mem_filter.mp ((List.mem_insertionSort _).mp ha)).2
      have hbc : b.completed = false := by
        have := (List.mem_filter.mp ((List.mem_insertionSort _).mp hb)).2
        simpa using this
      exact Or.inl ⟨hac, hbc⟩
  have hmap : ((DB.get_all_daily_games sessions).map stripRank).Pairwise
      rankedBefore := by
    rw [get_all_daily_games_stripRank]
    exact hpairL
  rw [List.pairwise_map] at hmap
  exact hmap.imp (fun h => h)

theorem leaderboard_perm (sessions : List Session) :
    List.Perm ((DB.get_all_daily_games sessions).map stripRank)
      (sessions.map toGameEntry) := by
  rw [get_all_daily_games_stripRank]
  exact (List.Perm.append (List.perm_insertionSort _ _)
    (List.perm_insertionSort _ _)).trans
    (List.filter_append_perm (fun g => g.completed) (sessions.map toGameEntry))

theorem leaderboard_stable (sessions : List Session) (k : Int) :
    ((DB.get_all_daily_games sessions).map stripRank).filter
        (fun g => g.completed && decide (g.completion_time.getD 0 = k)) =
      (sessions.map toGameEntry).filter
        (fun g => g.completed && decide (g.completion_time.getD 0 = k)) := by
  set pk : GameEntry → Bool :=
    fun g => g.completed && decide (g.completion_time.getD 0 = k) with hpk
  rw [get_all_daily_games_stripRank, List.filter_append]
  have hnil : (((sessions.map toGameEntry).filter
      (fun g => !g.completed)).insertionSort incompleteLE).filter pk = [] := by
    refine List.filter_eq_nil_iff.mpr ?_
    intro a ha
    have hac : a.completed = false := by
      have := (List.mem_filter.mp ((List.mem_insertionSort _).mp ha)).2
      simpa using this
    simp [hpk, hac]
  have hstable : (((sessions.map toGameEntry).filter
      (fun g => g.completed)).insertionSort completedLE).filter pk =
      ((sessions.map toGameEntry).filter (fun g => g.completed)).filter pk := by
    refine filter_insertionSort_eq completedLE pk _ ?_
    intro a b hpa hpb
    have hka : a.completion_time.getD 0 = k := by
      have := (Bool.and_elim_right hpa)
      exact of_decide_eq_true this
    have hkb : b.completion_time.getD 0 = k := by
      have := (Bool.and_elim_right hpb)
      exact of_decide_eq_true this
    unfold completedLE
    rw [hka, hkb]
  rw [hnil, hstable, List.append_nil, List.filter_filter]
  refine List.filter_congr ?_
  intro a _
  cases hc : a.completed <;> simp [hpk, hc]

/-- C7: for every list of a date's sessions, the leaderboard (i) assigns
the dense 1-based ranks 1, 2, ... in list order, (ii) is pairwise ordered
with every completed entry before every incomplete one, completed entries
in ascending completion-time order and incomplete entries by descending
solved-group count then ascending attempts-used, (iii) contains exactly
the input's entries (a permutation, ranks erased), and (iv) keeps
completed entries with equal completion times in input order (stability).
-/
theorem C7_leaderboard_ranking (sessions : List Session) :
    ((DB.get_all_daily_games sessions).map (fun g => g.rank) =
      List.range' 1 (DB.get_all_daily_games sessions).length) ∧
    (DB.get_all_daily_games sessions).Pairwise rankedBefore ∧
    List.Perm ((DB.get_all_daily_games sessions).map stripRank)
      (sessions.map toGameEntry) ∧
    (∀ k : Int,
      ((DB.get_all_daily_games sessions).map stripRank).filter
          (fun g => g.completed && decide (g.completion_time.getD 0 = k)) =
        (sessions.map toGameEntry).filter
          (fun g => g.completed && decide (g.completion_time.getD 0 = k))) :=
  ⟨leaderboard_ranks sessions, leaderboard_pairwise sessions,
    leaderboard_perm sessions, fun k => leaderboard_stable sessions k⟩

/-- Counterexample to C4: the candidate below satisfies every check the
claim lists (4 groups of 4 single-token words without internal whitespace,
16 case-insensitively distinct words, difficulties 1-4 once each, distinct
categories), yet `_validate_puzzle` returns False, because the code
additionally rejects a word in capitalized style ("Apple"); it likewise
rejects hyphenated words. -/
theorem C4_counterexample :
    claimValid [⟨["Apple", "BRAVO", "DELTA", "GOLF"], "NATO", 1⟩,
      sampleGroup2, sampleGroup3, sampleGroup4] = true ∧
    Generator.validate_puzzle [⟨["Apple", "BRAVO", "DELTA", "GOLF"], "NATO", 1⟩,
      sampleGroup2, sampleGroup3, sampleGroup4] = some false := by
  constructor <;> rfl

/-- C4 amended: `validate` returns true if and only if the candidate has
exactly 4 groups, each with exactly 4 words, where every word after
stripping is nonempty, contains no space and no hyphen, and is not
capitalized-style (uppercase first letter followed by a lowercase letter);
the 16 uppercased-and-stripped words are pairwise distinct; the
difficulties are exactly {1, 2, 3, 4}; and the 4 stripped category labels
are pairwise distinct.  (Per-word checks beyond the claim: hyphens and
capitalized-style words are rejected; only the space character counts as
internal whitespace; a word that strips to the empty string raises instead
of returning False.) -/
theorem C4_validate_iff (groups : List Group) :
    Generator.validate_puzzle groups = some true ↔ AmendedValid groups := by
  unfold Generator.validate_puzzle AmendedValid
  by_cases hlen : groups.length = 4
  case neg =>
    rw [if_pos (by simpa using hlen)]
    simp [hlen]
  case pos =>
    rw [if_neg (by simp [hlen])]
    rcases hgc : Generator.groupsCheck groups with _ | b
    · simp only [hgc]
      constructor
      · intro hcon; cases hcon
      · intro hall
        have h := groupsCheck_eq_some_true.mpr
          (fun g hg => ⟨hall.2.1 g hg, hall.2.2.1 g hg⟩)
        rw [hgc] at h
        cases h
    · rcases b with _ | _
      · simp only [hgc]
        constructor
        · intro hcon; cases hcon
        · intro hall
          have h := groupsCheck_eq_some_true.mpr
            (fun g hg => ⟨hall.2.1 g hg, hall.2.2.1 g hg⟩)
          rw [hgc] at h
          cases h
      · simp only [hgc]
        have hgs := groupsCheck_eq_some_true.mp hgc
        have hw4 : ∀ g ∈ groups, g.words.length = 4 := fun g hg => (hgs g hg).1
        have hflat : ((groups.map
            (fun g => g.words.map (fun w => pyStrip (pyUpper w)))).flatten).length
            = 16 := flatten_words_length _ hlen hw4
        have hcats : (groups.map (fun g => pyStrip g.category)).length = 4 := by
          rw [List.length_map, hlen]
        rw [if_neg (by simp [hflat])]
        by_cases h2 : ((groups.map
            (fun g => g.words.map (fun w => pyStrip (pyUpper w)))).flatten).dedup.length = 16
        case neg =>
          rw [if_pos (by simpa using h2)]
          constructor
          · intro hcon; cases hcon
          · intro hall
            exact absurd ((dedup_length_iff hflat).mpr hall.2.2.2.1) h2
        case pos =>
          rw [if_neg (by simpa using h2)]
          by_cases h3 : (groups.map (fun g => g.difficulty)).insertionSort (· ≤ ·)
              = ([1, 2, 3, 4] : List Int)
          case neg =>
            rw [if_pos (by simpa using h3)]
            constructor
            · intro hcon; cases hcon
            · intro hall
              exact absurd (insertionSortInt_eq_iff_perm.mpr hall.2.2.2.2.1) h3
          case pos =>
            rw [if_neg (by simpa using h3)]
            by_cases h4 : (groups.map (fun g => pyStrip g.category)).dedup.length = 4
            case neg =>
              rw [if_pos (by simpa using h4)]
              constructor
              · intro hcon; cases hcon
              · intro hall
                exact absurd ((dedup_length_iff hcats).mpr hall.2.2.2.2.2) h4
            case pos =>
              rw [if_neg (by simpa using h4)]
              constructor
              · intro _
                exact ⟨hlen, hw4, fun g hg => (hgs g hg).2,
                  (dedup_length_iff hflat).mp h2,
                  insertionSortInt_eq_iff_perm.mp h3,
                  (dedup_length_iff hcats).mp h4⟩
              · intro _
                rfl

end WordWebs
